import Mathlib

/-
  Verification development for the smt-kit core term library
  (src/include/smt.h): a shallow embedding of the Sort algebra, the
  Expr/Term node hierarchy, the typed and untyped builder layers, and
  the array-theory semantics, together with proofs of the documented
  properties.

  Modelling conventions:
  * C++ `assert(...)` failures (unrecoverable aborts) and thrown
    `std::out_of_range` exceptions are modelled by `Except BuildErr`
    results (`assertViolation` / `outOfRange`).
  * A term handle (`UnsafeTerm` / `Term<T>` in C++) is a `UTerm`:
    either `null` (empty handle) or a node.  Nodes are immutable by
    construction in this pure embedding, mirroring the source, where
    nodes are created once and never mutated.
  * Each node records the `Sort` stored in its `UnsafeExpr` base and,
    when the node was created through a typed `Expr<T>` class, the
    static type `T` (`staticTy`); nodes built through the untyped
    (`Unsafe*Expr`) constructors carry no static type, which is what
    `dynamic_pointer_cast<const Expr<T>>` tests in
    `UnsafeTerm::operator T`.
  * C++ virtual inheritance matters: in a most-derived typed node class
    (e.g. `ArraySelectExpr`), the virtual base `UnsafeExpr` is
    initialised by the most-derived constructor, so the sort expression
    written in the intermediate `Unsafe*Expr` constructor (such as
    `array.sort().sorts(1)`) is evaluated only on the untyped path.
-/

/-- Static type parameters of the typed term layer: the `T` of
`Term<T>`, drawn from `Bool`, `Int`, `Real`, `Bv<T>` (by signedness and
bit-width), `Array<Domain, Range>` and `Func<T..., Range>`. -/
inductive Ty where
  | bool
  | int
  | real
  | bv (signed : Bool) (width : Nat)
  | array (dom ran : Ty)
  | func (args : List Ty) (ran : Ty)

mutual

/-- Boolean structural equality on `Ty` (written by hand because the
nested `List Ty` defeats automatic deriving). -/
def tyBeq : Ty → Ty → Bool
  | .bool, .bool => true
  | .int, .int => true
  | .real, .real => true
  | .bv g w, .bv g' w' => g == g' && w == w'
  | .array d r, .array d' r' => tyBeq d d' && tyBeq r r'
  | .func as r, .func as' r' => tyListBeq as as' && tyBeq r r'
  | _, _ => false

/-- Pointwise `tyBeq` on lists of types. -/
def tyListBeq : List Ty → List Ty → Bool
  | [], [] => true
  | a :: as, b :: bs => tyBeq a b && tyListBeq as bs
  | _, _ => false

end

mutual

theorem tyBeq_iff : ∀ a b : Ty, tyBeq a b = true ↔ a = b
  | .bool, b => by cases b <;> simp [tyBeq]
  | .int, b => by cases b <;> simp [tyBeq]
  | .real, b => by cases b <;> simp [tyBeq]
  | .bv g w, b => by cases b <;> simp [tyBeq]
  | .array d r, b => by cases b <;> simp [tyBeq, tyBeq_iff]
  | .func as r, b => by cases b <;> simp [tyBeq, tyBeq_iff, tyListBeq_iff]

theorem tyListBeq_iff : ∀ as bs : List Ty, tyListBeq as bs = true ↔ as = bs
  | [], bs => by cases bs <;> simp [tyListBeq]
  | a :: as, bs => by cases bs <;> simp [tyListBeq, tyBeq_iff, tyListBeq_iff]

end

instance : DecidableEq Ty := fun a b =>
  decidable_of_iff (tyBeq a b = true) (tyBeq_iff a b)

/-- The `Sort` descriptor of `smt.h`: either a primitive sort, built by
the six-argument constructor `(is_bool, is_int, is_real, is_bv,
is_signed, bv_size)` with no nested sorts, or a composite sort, built
by the `(is_func, is_array, is_tuple, sorts)` constructor over an
ordered sequence of nested sorts. -/
inductive SSort where
  | prim (is_bool is_int is_real is_bv is_signed : Bool) (bv_size : Nat)
  | comp (is_func is_array is_tuple : Bool) (nested : List SSort)

def SSort.is_bool : SSort → Bool
  | .prim b _ _ _ _ _ => b
  | .comp _ _ _ _ => false

def SSort.is_int : SSort → Bool
  | .prim _ b _ _ _ _ => b
  | .comp _ _ _ _ => false

def SSort.is_real : SSort → Bool
  | .prim _ _ b _ _ _ => b
  | .comp _ _ _ _ => false

def SSort.is_bv : SSort → Bool
  | .prim _ _ _ b _ _ => b
  | .comp _ _ _ _ => false

def SSort.is_signed : SSort → Bool
  | .prim _ _ _ _ b _ => b
  | .comp _ _ _ _ => false

def SSort.bv_size : SSort → Nat
  | .prim _ _ _ _ _ n => n
  | .comp _ _ _ _ => 0

def SSort.is_func : SSort → Bool
  | .prim _ _ _ _ _ _ => false
  | .comp b _ _ _ => b

def SSort.is_array : SSort → Bool
  | .prim _ _ _ _ _ _ => false
  | .comp _ b _ _ => b

def SSort.is_tuple : SSort → Bool
  | .prim _ _ _ _ _ _ => false
  | .comp _ _ b _ => b

/-- The nested-sort sequence (`m_sorts` / `m_sorts_size`); empty for
primitive sorts. -/
def SSort.nested : SSort → List SSort
  | .prim _ _ _ _ _ _ => []
  | .comp _ _ _ ns => ns

/-- `Sort::sorts_size()`. -/
def SSort.sorts_size (s : SSort) : Nat := s.nested.length

/-- Failure modes of the construction layer: `assertViolation` models a
failed `assert` (unrecoverable abort), `outOfRange` models a thrown
`std::out_of_range`. -/
inductive BuildErr where
  | assertViolation
  | outOfRange
deriving DecidableEq, Repr

/-- `Sort::sorts(index)`: `check_sorts_index` throws `std::out_of_range`
when `index >= m_sorts_size`, otherwise `*m_sorts[index]` is returned. -/
def SSort.sortsGet (s : SSort) (index : Nat) : Except BuildErr SSort :=
  if h : index < s.sorts_size then .ok (s.nested.get ⟨index, h⟩)
  else .error .outOfRange

mutual

/-- `internal::sort<T>()`, the registry mapping each static type to its
canonical `Sort`: `__Math<Bool/Int/Real>` are primitive math sorts,
`__Bv<T>` is a bit-vector sort keyed by `(signedness, bit-width)`,
`__Math<Array<Domain, Range>>` is a composite sort over the domain and
range sorts, and `__Math<Func<T, U...>>` is a composite sort over all
argument sorts followed by the result sort (built by `__FuncSort`). -/
def sortOf : Ty → SSort
  | .bool => .prim true false false false false 0
  | .int => .prim false true false false false 0
  | .real => .prim false false true false false 0
  | .bv sg w => .prim false false false true sg w
  | .array d r => .comp false true false [sortOf d, sortOf r]
  | .func args ran => .comp true false false (sortOfList args ++ [sortOf ran])

/-- `sortOf` mapped over a list of static types (the `__FuncSort`
recursion collecting one sort per function argument, in order). -/
def sortOfList : List Ty → List SSort
  | [] => []
  | t :: ts => sortOf t :: sortOfList ts

end

theorem sortOfList_eq_map : ∀ ts : List Ty, sortOfList ts = ts.map sortOf
  | [] => rfl
  | t :: ts => by simp [sortOfList, sortOfList_eq_map ts]

/-- `Opcode`: operator tag of unary, binary and N-ary nodes. -/
inductive Opcode where
  | lnot
  | not
  | sub
  | and
  | or
  | xor
  | land
  | lor
  | imp
  | eql
  | add
  | mul
  | quo
  | rem
  | lss
  | gtr
  | neq
  | leq
  | geq
deriving DecidableEq, Repr

/-- `ExprKind`: the tag carried by every expression node. -/
inductive ExprKind where
  | literalK
  | unaryK
  | binaryK
  | naryK
  | constArrayK
  | arraySelectK
  | arrayStoreK
  | constantK
  | funcAppK
deriving DecidableEq, Repr

/-- `UnsafeDecl`: a named symbol together with its sort. -/
structure UnsafeDecl where
  symbol : String
  sort : SSort

/-- Primitive literal payloads of `UnsafeLiteralExpr<T>` (booleans and
the integral types, the latter collapsed to mathematical integers). -/
inductive Lit where
  | bool (b : Bool)
  | int (n : Int)
deriving DecidableEq, Repr

/-- A term handle: `null` is the empty handle; every other constructor
is an immutable expression node as in `smt.h`, carrying the `Sort`
stored in its `UnsafeExpr` base, the static type of its `Expr<T>` base
when built through a typed node class (`none` on the untyped path), and
its operand handles. -/
inductive UTerm where
  | null
  | literal (sort : SSort) (staticTy : Option Ty) (lit : Lit)
  | constant (sort : SSort) (staticTy : Option Ty) (decl : UnsafeDecl)
  | unary (sort : SSort) (staticTy : Option Ty) (op : Opcode) (operand : UTerm)
  | binary (sort : SSort) (staticTy : Option Ty) (op : Opcode)
      (loperand roperand : UTerm)
  | nary (sort : SSort) (staticTy : Option Ty) (op : Opcode)
      (operands : List UTerm)
  | constArray (sort : SSort) (staticTy : Option Ty) (init : UTerm)
  | arraySelect (sort : SSort) (staticTy : Option Ty) (arr index : UTerm)
  | arrayStore (sort : SSort) (staticTy : Option Ty) (arr index value : UTerm)
  | funcApp (sort : SSort) (staticTy : Option Ty) (decl : UnsafeDecl)
      (args : List UTerm)

/-- `UnsafeTerm::is_null()`. -/
def UTerm.isNull : UTerm → Bool
  | .null => true
  | _ => false

/-- The sort of the underlying node, if any (`none` for a null handle,
for which `UnsafeTerm::sort()` would fail its assertion). -/
def UTerm.sort? : UTerm → Option SSort
  | .null => none
  | .literal s _ _ => some s
  | .constant s _ _ => some s
  | .unary s _ _ _ => some s
  | .binary s _ _ _ _ => some s
  | .nary s _ _ _ => some s
  | .constArray s _ _ => some s
  | .arraySelect s _ _ _ => some s
  | .arrayStore s _ _ _ _ => some s
  | .funcApp s _ _ _ => some s

/-- The `ExprKind` of the underlying node, if any. -/
def UTerm.kind? : UTerm → Option ExprKind
  | .null => none
  | .literal _ _ _ => some .literalK
  | .constant _ _ _ => some .constantK
  | .unary _ _ _ _ => some .unaryK
  | .binary _ _ _ _ _ => some .binaryK
  | .nary _ _ _ _ => some .naryK
  | .constArray _ _ _ => some .constArrayK
  | .arraySelect _ _ _ _ => some .arraySelectK
  | .arrayStore _ _ _ _ _ => some .arrayStoreK
  | .funcApp _ _ _ _ => some .funcAppK

/-- The static type `T` of the node's `Expr<T>` base, if the node was
built through a typed node class. -/
def UTerm.staticTy? : UTerm → Option Ty
  | .null => none
  | .literal _ t _ => t
  | .constant _ t _ => t
  | .unary _ t _ _ => t
  | .binary _ t _ _ _ => t
  | .nary _ t _ _ => t
  | .constArray _ t _ => t
  | .arraySelect _ t _ _ => t
  | .arrayStore _ t _ _ _ => t
  | .funcApp _ t _ _ => t

/-- `UnsafeTerm::sort()`: asserts the handle is non-null before
dereferencing. -/
def UTerm.sortE (u : UTerm) : Except BuildErr SSort :=
  match u.sort? with
  | none => .error .assertViolation
  | some s => .ok s

/-- `UnsafeUnaryExpr` constructor: asserts its operand is non-null. -/
def UnsafeUnaryExpr.mk (sort : SSort) (opcode : Opcode) (operand : UTerm) :
    Except BuildErr UTerm :=
  if operand.isNull then .error .assertViolation
  else .ok (.unary sort none opcode operand)

/-- `UnsafeBinaryExpr` constructor: asserts both operands are
non-null. -/
def UnsafeBinaryExpr.mk (sort : SSort) (opcode : Opcode)
    (loperand roperand : UTerm) : Except BuildErr UTerm :=
  if loperand.isNull then .error .assertViolation
  else if roperand.isNull then .error .assertViolation
  else .ok (.binary sort none opcode loperand roperand)

/-- `UnsafeNaryExpr` constructor: asserts only that the operand vector
is non-empty; the individual operand handles are not checked. -/
def UnsafeNaryExpr.mk (sort : SSort) (opcode : Opcode)
    (operands : List UTerm) : Except BuildErr UTerm :=
  if operands.isEmpty then .error .assertViolation
  else .ok (.nary sort none opcode operands)

/-- `UnsafeConstArrayExpr` constructor: asserts the initialiser is
non-null. -/
def UnsafeConstArrayExpr.mk (sort : SSort) (init : UTerm) :
    Except BuildErr UTerm :=
  if init.isNull then .error .assertViolation
  else .ok (.constArray sort none init)

/-- `UnsafeArraySelectExpr` constructor.  Its member-initialiser list
evaluates `array.sort().sorts(1)` for the node sort, so a null array
handle first trips the assertion inside `UnsafeTerm::sort()`, and an
array sort without a nested sort at index 1 throws `std::out_of_range`;
the constructor body then asserts the index handle is non-null. -/
def UnsafeArraySelectExpr.mk (arr index : UTerm) : Except BuildErr UTerm := do
  let s ← arr.sortE
  let rs ← s.sortsGet 1
  if index.isNull then .error .assertViolation
  else .ok (.arraySelect rs none arr index)

/-- `UnsafeArrayStoreExpr` constructor: the node sort is `array.sort()`
(asserting the array handle is non-null), and the body asserts the
index and value handles are non-null. -/
def UnsafeArrayStoreExpr.mk (arr index value : UTerm) :
    Except BuildErr UTerm := do
  let s ← arr.sortE
  if index.isNull then .error .assertViolation
  else if value.isNull then .error .assertViolation
  else .ok (.arrayStore s none arr index value)

/-- `UnsafeFuncAppExpr<arity>` constructor: the node sort is
`func_decl.sort().sorts(arity)` (which may throw `std::out_of_range`);
no null checks are performed on the argument handles. -/
def UnsafeFuncAppExpr.mk (funcDecl : UnsafeDecl) (arity : Nat)
    (args : List UTerm) : Except BuildErr UTerm := do
  let rs ← funcDecl.sort.sortsGet arity
  .ok (.funcApp rs none funcDecl args)

/-- `LiteralExpr<T>` (most-derived typed literal node): sort and static
type both come from `T`. -/
def LiteralExpr.mk (t : Ty) (lit : Lit) : UTerm :=
  .literal (sortOf t) (some t) lit

/-- `ConstantExpr<T>`: wraps a typed declaration; sort and static type
come from `T`. -/
def ConstantExpr.mk (t : Ty) (symbol : String) : UTerm :=
  .constant (sortOf t) (some t) ⟨symbol, sortOf t⟩

/-- `UnaryExpr<opcode, T, U>`: the virtual `UnsafeExpr` base is
initialised by this most-derived class with `sort<U>()`; the
`UnsafeUnaryExpr` body still asserts the operand is non-null. -/
def UnaryExpr.mk (opcode : Opcode) (u : Ty) (operand : UTerm) :
    Except BuildErr UTerm :=
  if operand.isNull then .error .assertViolation
  else .ok (.unary (sortOf u) (some u) opcode operand)

/-- `BinaryExpr<opcode, T, U>`: node sort `sort<U>()`; the
`UnsafeBinaryExpr` body asserts both operands are non-null. -/
def BinaryExpr.mk (opcode : Opcode) (u : Ty) (loperand roperand : UTerm) :
    Except BuildErr UTerm :=
  if loperand.isNull then .error .assertViolation
  else if roperand.isNull then .error .assertViolation
  else .ok (.binary (sortOf u) (some u) opcode loperand roperand)

/-- `NaryExpr<opcode, T, U>`: node sort `sort<U>()`; the
`UnsafeNaryExpr` body asserts the operand vector is non-empty. -/
def NaryExpr.mk (opcode : Opcode) (u : Ty) (operands : List UTerm) :
    Except BuildErr UTerm :=
  if operands.isEmpty then .error .assertViolation
  else .ok (.nary (sortOf u) (some u) opcode operands)

/-- `ConstArrayExpr<Domain, Range>`: node sort
`sort<Array<Domain, Range>>()`; asserts the initialiser is non-null. -/
def ConstArrayExpr.mk (dom ran : Ty) (init : UTerm) :
    Except BuildErr UTerm :=
  if init.isNull then .error .assertViolation
  else .ok (.constArray (sortOf (.array dom ran)) (some (.array dom ran)) init)

/-- `ArraySelectExpr<Domain, Range>`: the virtual `UnsafeExpr` base is
initialised here with `sort<Range>()` (so `array.sort().sorts(1)` from
the untyped constructor is not evaluated on this path); the
`UnsafeArraySelectExpr` body asserts both handles are non-null. -/
def ArraySelectExpr.mk (_dom ran : Ty) (arr index : UTerm) :
    Except BuildErr UTerm :=
  if arr.isNull then .error .assertViolation
  else if index.isNull then .error .assertViolation
  else .ok (.arraySelect (sortOf ran) (some ran) arr index)

/-- `ArrayStoreExpr<Domain, Range>`: node sort
`sort<Array<Domain, Range>>()`; the `UnsafeArrayStoreExpr` body asserts
all three handles are non-null. -/
def ArrayStoreExpr.mk (dom ran : Ty) (arr index value : UTerm) :
    Except BuildErr UTerm :=
  if arr.isNull then .error .assertViolation
  else if index.isNull then .error .assertViolation
  else if value.isNull then .error .assertViolation
  else .ok (.arrayStore (sortOf (.array dom ran)) (some (.array dom ran))
    arr index value)

/-- `FuncAppExpr<T...>`: node sort `sort<typename Func<T...>::Range>()`
(the declared range), static type the range; no null checks. -/
def FuncAppExpr.mk (funcDecl : UnsafeDecl) (ran : Ty) (args : List UTerm) :
    UTerm :=
  .funcApp (sortOf ran) (some ran) funcDecl args

/-- The typed free function `select(array, index)`. -/
def select (dom ran : Ty) (arr index : UTerm) : Except BuildErr UTerm :=
  ArraySelectExpr.mk dom ran arr index

/-- The typed free function `store(array, index, value)`. -/
def store (dom ran : Ty) (arr index value : UTerm) : Except BuildErr UTerm :=
  ArrayStoreExpr.mk dom ran arr index value

/-- The typed free function `distinct(Terms<T>&&)`: builds
`NaryExpr<NEQ, T, Bool>` over the given terms. -/
def distinct (_t : Ty) (terms : List UTerm) : Except BuildErr UTerm :=
  NaryExpr.mk .neq .bool terms

/-- The typed n-ary `apply(func_decl, args)`: wraps the function
application node in a handle of the function's declared range type. -/
def applyFunc (argTys : List Ty) (ran : Ty) (symbol : String)
    (args : List UTerm) : UTerm :=
  FuncAppExpr.mk ⟨symbol, sortOf (.func argTys ran)⟩ ran args

/-- `UnsafeTerm::operator T()`: a down-cast of an untyped handle via
`dynamic_pointer_cast<const Expr<T>>`.  It never throws: it yields a
null handle unless the underlying node has an `Expr<T>` base (i.e. was
built through a typed node class with static type `T`), in which case
the typed handle shares the same node. -/
def UTerm.castTo (t : Ty) (u : UTerm) : UTerm :=
  match u.staticTy? with
  | some t' => if t' = t then u else .null
  | none => .null

/-- `SMT_BUILTIN_BINARY_OP(op, opcode)` (and its `Bv`/`Bool` variants):
the term-term overload builds `BinaryExpr<opcode, T>` with result sort
`sort<T>()`, the operand sort. -/
def builtinBinaryOp (opcode : Opcode) (t : Ty) (larg rarg : UTerm) :
    Except BuildErr UTerm :=
  BinaryExpr.mk opcode t larg rarg

/-- `SMT_BUILTIN_BINARY_REL(op, opcode)`: the term-term overload builds
`BinaryExpr<opcode, T, Bool>` with result sort `sort<Bool>()`. -/
def builtinBinaryRel (opcode : Opcode) (_t : Ty) (larg rarg : UTerm) :
    Except BuildErr UTerm :=
  BinaryExpr.mk opcode .bool larg rarg

/-- `SMT_UNSAFE_BINARY_OP(op, opcode)`: the term-term overload builds
`UnsafeBinaryExpr(larg.sort(), opcode, larg, rarg)`, the node carrying
the left operand's runtime sort. -/
def unsafeBinaryOp (opcode : Opcode) (larg rarg : UTerm) :
    Except BuildErr UTerm := do
  let s ← larg.sortE
  UnsafeBinaryExpr.mk s opcode larg rarg

/-- `SMT_UNSAFE_BINARY_REL(op, opcode)`: the term-term overload builds
`UnsafeBinaryExpr(sort<Bool>(), opcode, larg, rarg)`, the node carrying
the boolean sort. -/
def unsafeBinaryRel (opcode : Opcode) (larg rarg : UTerm) :
    Except BuildErr UTerm :=
  UnsafeBinaryExpr.mk (sortOf .bool) opcode larg rarg

/-- Opcodes of the overloaded arithmetic and bitwise operators
`+ - * / % & | ^` (instantiations of the `_OP` macros). -/
def arithOpcodes : List Opcode :=
  [.add, .sub, .mul, .quo, .rem, .and, .or, .xor]

/-- Opcodes of the overloaded relational operators `== != < <= > >=`
(instantiations of the `_REL` macros). -/
def relOpcodes : List Opcode :=
  [.eql, .neq, .lss, .leq, .gtr, .geq]

/-
  Semantics of the array/equality fragment.

  Modelled from the spec: the source delegates all evaluation to
  backend solvers (out of scope of the repository core), so the meaning
  of the terms built by `select`, `store`, `==` and `!` is taken from
  the spec's words: "the select/store array theory with functional
  update semantics" (McCarthy arrays) and standard SMT semantics of
  equality and negation.  Arrays are modelled as a default value
  together with a finite list of index/value overrides, newest first,
  which is exactly functional update.
-/

mutual

/-- Modelled from the spec: a semantic value — a boolean, an integer
(also standing for bit-vector and real numerals), or a McCarthy array
given by a default value and a list of stored index/value pairs, newest
first. -/
inductive Val where
  | bool (b : Bool)
  | int (n : Int)
  | arr (dflt : Val) (entries : ValEntries)

/-- Association list of array overrides (index value, stored value). -/
inductive ValEntries where
  | nil
  | cons (key value : Val) (rest : ValEntries)

end

mutual

/-- Structural equality of semantic values. -/
def valBeq : Val → Val → Bool
  | .bool a, .bool b => a == b
  | .int a, .int b => a == b
  | .arr d e, .arr d' e' => valBeq d d' && valEntriesBeq e e'
  | _, _ => false

/-- Pointwise structural equality of override lists. -/
def valEntriesBeq : ValEntries → ValEntries → Bool
  | .nil, .nil => true
  | .cons k v r, .cons k' v' r' =>
      valBeq k k' && valBeq v v' && valEntriesBeq r r'
  | _, _ => false

end

mutual

theorem valBeq_refl : ∀ v : Val, valBeq v v = true
  | .bool b => by simp [valBeq]
  | .int n => by simp [valBeq]
  | .arr d e => by simp [valBeq, valBeq_refl d, valEntriesBeq_refl e]

theorem valEntriesBeq_refl : ∀ e : ValEntries, valEntriesBeq e e = true
  | .nil => by simp [valEntriesBeq]
  | .cons k v r => by
      simp [valEntriesBeq, valBeq_refl k, valBeq_refl v, valEntriesBeq_refl r]

end

/-- Array read: the value of the newest override whose index equals the
key, or the default value when no override matches. -/
def entriesLookup : ValEntries → Val → Val → Val
  | .nil, _, dflt => dflt
  | .cons k v r, key, dflt =>
      if valBeq key k then v else entriesLookup r key dflt

/-- Modelled from the spec: evaluation of the array/equality fragment
of the term language under an interpretation `env` of constant symbols.
`select`/`store` follow the McCarthy functional-update semantics, `==`
is equality of denotations, `!` is boolean negation; term shapes
outside the fragment (and ill-sorted applications) have no denotation
(`none`). -/
def eval (env : String → Val) : UTerm → Option Val
  | .null => none
  | .literal _ _ (.bool b) => some (.bool b)
  | .literal _ _ (.int n) => some (.int n)
  | .constant _ _ d => some (env d.symbol)
  | .unary _ _ .lnot a =>
      match eval env a with
      | some (.bool b) => some (.bool (!b))
      | _ => none
  | .unary _ _ _ _ => none
  | .binary _ _ .eql l r =>
      match eval env l, eval env r with
      | some x, some y => some (.bool (valBeq x y))
      | _, _ => none
  | .binary _ _ _ _ _ => none
  | .constArray _ _ init =>
      match eval env init with
      | some v => some (.arr v .nil)
      | none => none
  | .arraySelect _ _ a i =>
      match eval env a, eval env i with
      | some (.arr d es), some iv => some (entriesLookup es iv d)
      | _, _ => none
  | .arrayStore _ _ a i v =>
      match eval env a, eval env i, eval env v with
      | some (.arr d es), some iv, some vv => some (.arr d (.cons iv vv es))
      | _, _, _ => none
  | .nary _ _ _ _ => none
  | .funcApp _ _ _ _ => none

/-
  Identity-aware model of the `Sort` class, for the equality operator.

  `Sort::operator==` reads, besides the classification fields, the raw
  pointers `this`, `&other` and `m_sorts`; to settle claims about it
  the embedding must keep those identities.  A `CSort` is one `Sort`
  object: `addr` models the object's address and `m_sorts` the address
  of its nested-sort array (0 for the null pointer of primitive
  sorts).  A `SortHeap` resolves those addresses: `objAt` maps a sort
  address to its object and `arrayAt` maps a nested-array address to
  the addresses of its elements.
-/

/-- One `Sort` object together with its identity (`addr`) and the
identity of its nested-sort array (`m_sorts`). -/
structure CSort where
  addr : Nat
  m_is_bool : Bool
  m_is_int : Bool
  m_is_real : Bool
  m_is_bv : Bool
  m_is_signed : Bool
  m_bv_size : Nat
  m_is_array : Bool
  m_is_func : Bool
  m_is_tuple : Bool
  m_sorts : Nat
  m_sorts_size : Nat
deriving DecidableEq, Repr

/-- `Sort::operator==` as written in the source: identity first
(`this == &other`), otherwise comparison of all classification fields
together with `m_sorts == other.m_sorts` (the address of the
nested-sort array) and `m_sorts_size`. -/
def CSort.opEq (s other : CSort) : Bool :=
  if s.addr == other.addr then true
  else
    s.m_is_bool == other.m_is_bool &&
    s.m_is_int == other.m_is_int &&
    s.m_is_real == other.m_is_real &&
    s.m_is_bv == other.m_is_bv &&
    s.m_is_signed == other.m_is_signed &&
    s.m_bv_size == other.m_bv_size &&
    s.m_is_func == other.m_is_func &&
    s.m_is_array == other.m_is_array &&
    s.m_is_tuple == other.m_is_tuple &&
    s.m_sorts == other.m_sorts &&
    s.m_sorts_size == other.m_sorts_size

/-- Resolution of sort-object and nested-array addresses. -/
structure SortHeap where
  objAt : Nat → CSort
  arrayAt : Nat → List Nat

/-- Pointwise comparison of two address lists by a given relation. -/
def listEqBy (f : Nat → Nat → Bool) : List Nat → List Nat → Bool
  | [], [] => true
  | a :: as, b :: bs => f a b && listEqBy f as bs
  | _, _ => false

/-- The equality the claim describes (the spec's words, for comparison
with `CSort.opEq`): identity first, otherwise agreement on all
classification fields together with element-by-element structural
equality of the nested-sort sequences.  `fuel` bounds the recursion
depth through nested sorts. -/
def specSortEq (H : SortHeap) : Nat → CSort → CSort → Bool
  | 0, _, _ => false
  | fuel + 1, s, other =>
    (s.addr == other.addr) ||
    (s.m_is_bool == other.m_is_bool &&
     s.m_is_int == other.m_is_int &&
     s.m_is_real == other.m_is_real &&
     s.m_is_bv == other.m_is_bv &&
     s.m_is_signed == other.m_is_signed &&
     s.m_bv_size == other.m_bv_size &&
     s.m_is_func == other.m_is_func &&
     s.m_is_array == other.m_is_array &&
     s.m_is_tuple == other.m_is_tuple &&
     listEqBy (fun a b => specSortEq H fuel (H.objAt a) (H.objAt b))
       (H.arrayAt s.m_sorts) (H.arrayAt other.m_sorts))

/-- The statically allocated `Int` sort object of the counterexample
heap. -/
def intSortObj : CSort :=
  ⟨1, false, true, false, false, false, 0, false, false, false, 0, 0⟩

/-- An `Array<Int, Int>` sort object whose nested-sort array lives at
address 10. -/
def arraySortA : CSort :=
  ⟨2, false, false, false, false, false, 0, true, false, false, 10, 2⟩

/-- A second, separately allocated `Array<Int, Int>` sort object whose
(structurally identical) nested-sort array lives at address 20. -/
def arraySortB : CSort :=
  ⟨3, false, false, false, false, false, 0, true, false, false, 20, 2⟩

/-- Heap for the counterexample: two distinct nested-sort arrays, at
addresses 10 and 20, both holding the domain and range sort `Int`. -/
def exHeap : SortHeap where
  objAt := fun a =>
    if a == 2 then arraySortA else if a == 3 then arraySortB else intSortObj
  arrayAt := fun p =>
    if p == 10 then [1, 1] else if p == 20 then [1, 1] else []

theorem isNull_iff (u : UTerm) : u.isNull = true ↔ u = .null := by
  cases u <;> simp [UTerm.isNull]

theorem except_bind_ok {α β : Type} (a : α)
    (f : α → Except BuildErr β) :
    (do let x ← Except.ok a; f x : Except BuildErr β) = f a := rfl

theorem except_bind_error {α β : Type} (e : BuildErr)
    (f : α → Except BuildErr β) :
    (do let x ← Except.error e; f x : Except BuildErr β) =
      Except.error e := rfl

theorem sortE_of_sort? (u : UTerm) (s : SSort) (h : u.sort? = some s) :
    u.sortE = .ok s := by
  simp [UTerm.sortE, h]

/-- C1 (counterexample): two distinct `Array<Int, Int>` sort objects
whose nested-sort arrays are separately allocated (addresses 10 and 20)
but structurally equal element by element.  The claim predicts the two
sorts compare equal; `Sort::operator==` compares the nested-sort array
addresses and returns false. -/
theorem sort_operator_eq_counterexample :
    arraySortA.addr ≠ arraySortB.addr ∧
    arraySortA.m_sorts ≠ arraySortB.m_sorts ∧
    specSortEq exHeap 2 arraySortA arraySortB = true ∧
    CSort.opEq arraySortA arraySortB = false := by
  refine ⟨by decide, by decide, by decide, by decide⟩

/-- C1 (amended): `s1 == s2` returns true when the objects are
identical, and otherwise exactly when they agree on all classification
fields, on the identity (address) of the nested-sort array, and on its
size; the nested-sort sequences are not compared element by element. -/
theorem sort_operator_eq_characterisation (s other : CSort) :
    CSort.opEq s other = true ↔
      s.addr = other.addr ∨
      (s.m_is_bool = other.m_is_bool ∧ s.m_is_int = other.m_is_int ∧
       s.m_is_real = other.m_is_real ∧ s.m_is_bv = other.m_is_bv ∧
       s.m_is_signed = other.m_is_signed ∧ s.m_bv_size = other.m_bv_size ∧
       s.m_is_func = other.m_is_func ∧ s.m_is_array = other.m_is_array ∧
       s.m_is_tuple = other.m_is_tuple ∧ s.m_sorts = other.m_sorts ∧
       s.m_sorts_size = other.m_sorts_size) := by
  by_cases h : s.addr = other.addr
  · simp [CSort.opEq, h]
  · simp [CSort.opEq, h, and_assoc]

/-- C3: for at least two terms of the same sort `T`,
`distinct(terms)` builds an N-ary node (`NaryExpr<NEQ, T, Bool>`) of
sort `Bool` with opcode `NEQ` and exactly the given terms, in order, as
its operands. -/
theorem distinct_builds_bool_nary_neq (t : Ty) (terms : List UTerm)
    (h : 2 ≤ terms.length) :
    distinct t terms =
      .ok (.nary (sortOf .bool) (some .bool) .neq terms) ∧
    (UTerm.nary (sortOf .bool) (some .bool) .neq terms).sort? =
      some (sortOf .bool) ∧
    (UTerm.nary (sortOf .bool) (some .bool) .neq terms).kind? =
      some .naryK := by
  have hne : terms.isEmpty = false := by
    cases terms with
    | nil => simp at h
    | cons a as => rfl
  exact ⟨by simp [distinct, NaryExpr.mk, hne], rfl, rfl⟩

/-- C3 witness. -/
theorem distinct_builds_bool_nary_neq_witness :
    2 ≤ [LiteralExpr.mk .int (.int 1), LiteralExpr.mk .int (.int 2)].length ∧
    distinct .int [LiteralExpr.mk .int (.int 1), LiteralExpr.mk .int (.int 2)] =
      .ok (.nary (sortOf .bool) (some .bool) .neq
        [LiteralExpr.mk .int (.int 1), LiteralExpr.mk .int (.int 2)]) :=
  ⟨by decide,
   (distinct_builds_bool_nary_neq .int
     [LiteralExpr.mk .int (.int 1), LiteralExpr.mk .int (.int 2)]
     (by decide)).1⟩

/-- C4: `store(a, i, v)` on non-null typed handles succeeds and returns
a node of kind `ARRAY_STORE_EXPR_KIND` whose sort equals `a`'s sort
`Array<D, R>`, and whose array, index and value components are exactly
the (unchanged) input handles — a functional update; no input node is
mutated, construction only creates the new node referencing them. -/
theorem store_is_functional_update (dom ran : Ty) (a i v : UTerm)
    (ha : a.isNull = false) (hi : i.isNull = false) (hv : v.isNull = false)
    (has : a.sort? = some (sortOf (.array dom ran))) :
    ∃ st : UTerm,
      store dom ran a i v = .ok st ∧
      st = .arrayStore (sortOf (.array dom ran)) (some (.array dom ran))
        a i v ∧
      st.kind? = some .arrayStoreK ∧
      st.sort? = a.sort? := by
  refine ⟨_, ?_, rfl, rfl, ?_⟩
  · simp [store, ArrayStoreExpr.mk, ha, hi, hv]
  · exact has.symm

/-- C4 witness. -/
theorem store_is_functional_update_witness :
    (ConstantExpr.mk (.array .int .int) "a").isNull = false ∧
    (ConstantExpr.mk (.array .int .int) "a").sort? =
      some (sortOf (.array .int .int)) ∧
    ∃ st : UTerm,
      store .int .int (ConstantExpr.mk (.array .int .int) "a")
          (LiteralExpr.mk .int (.int 1)) (LiteralExpr.mk .int (.int 2)) =
        .ok st ∧
      st = .arrayStore (sortOf (.array .int .int)) (some (.array .int .int))
        (ConstantExpr.mk (.array .int .int) "a")
        (LiteralExpr.mk .int (.int 1)) (LiteralExpr.mk .int (.int 2)) ∧
      st.kind? = some .arrayStoreK ∧
      st.sort? = (ConstantExpr.mk (.array .int .int) "a").sort? :=
  ⟨rfl, rfl,
   store_is_functional_update .int .int _ _ _ rfl rfl rfl rfl⟩

/-- C8: `Sort::sorts(i)` fails with an out-of-range condition exactly
when `i ≥ sorts_size()`, and otherwise returns the i-th nested sort. -/
theorem sorts_index_range_check (s : SSort) (i : Nat) :
    (s.sorts_size ≤ i → s.sortsGet i = .error .outOfRange) ∧
    (∀ h : i < s.sorts_size, s.sortsGet i = .ok (s.nested.get ⟨i, h⟩)) := by
  constructor
  · intro h
    unfold SSort.sortsGet
    rw [dif_neg (by omega)]
  · intro h
    unfold SSort.sortsGet
    rw [dif_pos h]

/-- C8 witness. -/
theorem sorts_index_range_check_witness :
    ((sortOf (.array .int .bool)).sorts_size ≤ 2 →
      (sortOf (.array .int .bool)).sortsGet 2 = .error .outOfRange) ∧
    ((sortOf (.array .int .bool)).sorts_size ≤ 2) ∧
    (sortOf (.array .int .bool)).sortsGet 2 = .error .outOfRange ∧
    (sortOf (.array .int .bool)).sortsGet 1 = .ok (sortOf .bool) :=
  ⟨(sorts_index_range_check (sortOf (.array .int .bool)) 2).1,
   by decide,
   (sorts_index_range_check (sortOf (.array .int .bool)) 2).1 (by decide),
   (sorts_index_range_check (sortOf (.array .int .bool)) 1).2 (by decide)⟩

/-- C9 (counterexample): the N-ary node constructor does not fail when
given a null operand handle — a non-empty operand vector containing a
null handle is accepted, and the constructed node holds that null
operand. -/
theorem nary_ctor_accepts_null_operand :
    UnsafeNaryExpr.mk (sortOf .bool) .land [UTerm.null] =
      .ok (.nary (sortOf .bool) none .land [UTerm.null]) ∧
    UTerm.isNull .null = true :=
  ⟨rfl, rfl⟩

/-- C9 (amended): the unary, binary, constant-array, array-select and
array-store node constructors abort via a failed assertion on any null
operand handle and succeed otherwise (array-select additionally needs
the array operand's sort to have a nested sort at index 1), so those
nodes hold only non-null operands; the N-ary constructor instead
asserts only that the operand vector is non-empty, accepting null
handles inside it. -/
theorem ctor_null_operand_checks :
    (∀ s op u, u.isNull = true →
      UnsafeUnaryExpr.mk s op u = .error .assertViolation) ∧
    (∀ s op u, u.isNull = false →
      UnsafeUnaryExpr.mk s op u = .ok (.unary s none op u)) ∧
    (∀ s op l r, l.isNull = true ∨ r.isNull = true →
      UnsafeBinaryExpr.mk s op l r = .error .assertViolation) ∧
    (∀ s op l r, l.isNull = false → r.isNull = false →
      UnsafeBinaryExpr.mk s op l r = .ok (.binary s none op l r)) ∧
    (∀ s u, u.isNull = true →
      UnsafeConstArrayExpr.mk s u = .error .assertViolation) ∧
    (∀ s u, u.isNull = false →
      UnsafeConstArrayExpr.mk s u = .ok (.constArray s none u)) ∧
    (∀ a i, a.isNull = true →
      UnsafeArraySelectExpr.mk a i = .error .assertViolation) ∧
    (∀ a i s rs, a.sort? = some s → s.sortsGet 1 = .ok rs →
      i.isNull = true →
      UnsafeArraySelectExpr.mk a i = .error .assertViolation) ∧
    (∀ a i s rs, a.sort? = some s → s.sortsGet 1 = .ok rs →
      i.isNull = false →
      UnsafeArraySelectExpr.mk a i = .ok (.arraySelect rs none a i)) ∧
    (∀ a i v, a.isNull = true →
      UnsafeArrayStoreExpr.mk a i v = .error .assertViolation) ∧
    (∀ a i v s, a.sort? = some s → i.isNull = true →
      UnsafeArrayStoreExpr.mk a i v = .error .assertViolation) ∧
    (∀ a i v s, a.sort? = some s → i.isNull = false → v.isNull = true →
      UnsafeArrayStoreExpr.mk a i v = .error .assertViolation) ∧
    (∀ a i v s, a.sort? = some s → i.isNull = false → v.isNull = false →
      UnsafeArrayStoreExpr.mk a i v = .ok (.arrayStore s none a i v)) ∧
    (∀ s op, UnsafeNaryExpr.mk s op [] = .error .assertViolation) ∧
    (∀ s op ops, ops ≠ [] →
      UnsafeNaryExpr.mk s op ops = .ok (.nary s none op ops)) := by
  refine ⟨?_, ?_, ?_, ?_, ?_, ?_, ?_, ?_, ?_, ?_, ?_, ?_, ?_, ?_, ?_⟩
  · intro s op u h
    simp [UnsafeUnaryExpr.mk, h]
  · intro s op u h
    simp [UnsafeUnaryExpr.mk, h]
  · intro s op l r h
    rcases h with h | h <;> simp [UnsafeBinaryExpr.mk, h]
  · intro s op l r hl hr
    simp [UnsafeBinaryExpr.mk, hl, hr]
  · intro s u h
    simp [UnsafeConstArrayExpr.mk, h]
  · intro s u h
    simp [UnsafeConstArrayExpr.mk, h]
  · intro a i h
    rw [isNull_iff] at h
    subst h
    rfl
  · intro a i s rs hs hget h
    simp [UnsafeArraySelectExpr.mk, sortE_of_sort? a s hs, hget, h,
      except_bind_ok]
  · intro a i s rs hs hget h
    simp [UnsafeArraySelectExpr.mk, sortE_of_sort? a s hs, hget, h,
      except_bind_ok]
  · intro a i v h
    rw [isNull_iff] at h
    subst h
    rfl
  · intro a i v s hs h
    simp [UnsafeArrayStoreExpr.mk, sortE_of_sort? a s hs, h,
      except_bind_ok]
  · intro a i v s hs hi h
    simp [UnsafeArrayStoreExpr.mk, sortE_of_sort? a s hs, hi, h,
      except_bind_ok]
  · intro a i v s hs hi hv
    simp [UnsafeArrayStoreExpr.mk, sortE_of_sort? a s hs, hi, hv,
      except_bind_ok]
  · intro s op
    rfl
  · intro s op ops h
    have hne : ops.isEmpty = false := by
      cases ops with
      | nil => exact absurd rfl h
      | cons x xs => rfl
    simp [UnsafeNaryExpr.mk, hne]

/-- C9 witness. -/
theorem ctor_null_operand_checks_witness :
    UnsafeUnaryExpr.mk (sortOf .bool) .lnot .null =
      .error .assertViolation ∧
    UnsafeBinaryExpr.mk (sortOf .int) .add
        (LiteralExpr.mk .int (.int 1)) (LiteralExpr.mk .int (.int 2)) =
      .ok (.binary (sortOf .int) none .add
        (LiteralExpr.mk .int (.int 1)) (LiteralExpr.mk .int (.int 2))) ∧
    UnsafeNaryExpr.mk (sortOf .bool) .land [] = .error .assertViolation ∧
    UnsafeNaryExpr.mk (sortOf .bool) .land [UTerm.null] =
      .ok (.nary (sortOf .bool) none .land [UTerm.null]) := by
  obtain ⟨h1, h2, h3, h4, h5, h6, h7, h8, h9, h10, h11, h12, h13, h14, h15⟩ :=
    ctor_null_operand_checks
  exact ⟨h1 _ _ _ rfl, h4 _ _ _ _ rfl rfl, h14 _ _, h15 _ _ _ (by simp)⟩

/-- C10: building an unsafe array-select over a term whose sort has
fewer than two nested sorts throws `std::out_of_range` at construction
time, because the result sort is computed as the operand sort's nested
sort at index 1. -/
theorem unsafe_select_rejects_non_array (arr index : UTerm) (s : SSort)
    (hs : arr.sort? = some s) (hn : s.sorts_size < 2) :
    UnsafeArraySelectExpr.mk arr index = .error .outOfRange := by
  have hget : s.sortsGet 1 = .error .outOfRange := by
    unfold SSort.sortsGet
    rw [dif_neg (by omega)]
  simp [UnsafeArraySelectExpr.mk, sortE_of_sort? arr s hs, hget,
    except_bind_ok, except_bind_error]

/-- C10 witness: an `Int`-sorted operand (nested count 0). -/
theorem unsafe_select_rejects_non_array_witness :
    (LiteralExpr.mk .int (.int 7)).sort? = some (sortOf .int) ∧
    (sortOf .int).sorts_size < 2 ∧
    UnsafeArraySelectExpr.mk (LiteralExpr.mk .int (.int 7))
        (LiteralExpr.mk .int (.int 0)) =
      .error .outOfRange :=
  ⟨rfl, by decide,
   unsafe_select_rejects_non_array _ _ (sortOf .int) rfl (by decide)⟩

theorem sortsGet_eq (s : SSort) (i : Nat) (h : i < s.nested.length) :
    s.sortsGet i = .ok s.nested[i] := by
  have h' : i < s.sorts_size := h
  unfold SSort.sortsGet
  rw [dif_pos h']
  simp [List.get_eq_getElem]

/-- C2: for two same-sorted typed operands, the relational operator
builders (`== != < <= > >=`, the `_REL` macros) produce nodes of sort
`Bool`, while the arithmetic and bitwise operator builders
(`+ - * / % & | ^`, the `_OP` macros) produce nodes of the operand
sort; the same holds on the unsafe-term path, where the `_REL` macros
pass `sort<Bool>()` and the `_OP` macros pass `larg.sort()` to the
node constructor. -/
theorem operator_result_sorts (t : Ty) (l r : UTerm)
    (hl : l.isNull = false) (hr : r.isNull = false)
    (hls : l.sort? = some (sortOf t)) :
    (∀ op ∈ relOpcodes, ∃ n : UTerm,
      builtinBinaryRel op t l r = .ok n ∧ n.sort? = some (sortOf .bool)) ∧
    (∀ op ∈ arithOpcodes, ∃ n : UTerm,
      builtinBinaryOp op t l r = .ok n ∧ n.sort? = some (sortOf t)) ∧
    (∀ op ∈ relOpcodes, ∃ n : UTerm,
      unsafeBinaryRel op l r = .ok n ∧ n.sort? = some (sortOf .bool)) ∧
    (∀ op ∈ arithOpcodes, ∃ n : UTerm,
      unsafeBinaryOp op l r = .ok n ∧ n.sort? = some (sortOf t)) := by
  refine ⟨?_, ?_, ?_, ?_⟩ <;> intro op _hop
  · exact ⟨.binary (sortOf .bool) (some .bool) op l r,
      by simp [builtinBinaryRel, BinaryExpr.mk, hl, hr], rfl⟩
  · exact ⟨.binary (sortOf t) (some t) op l r,
      by simp [builtinBinaryOp, BinaryExpr.mk, hl, hr], rfl⟩
  · exact ⟨.binary (sortOf .bool) none op l r,
      by simp [unsafeBinaryRel, UnsafeBinaryExpr.mk, hl, hr], rfl⟩
  · exact ⟨.binary (sortOf t) none op l r,
      by simp [unsafeBinaryOp, UnsafeBinaryExpr.mk, sortE_of_sort? l _ hls,
        except_bind_ok, hl, hr], rfl⟩

/-- C2 witness. -/
theorem operator_result_sorts_witness :
    (LiteralExpr.mk .int (.int 3)).isNull = false ∧
    (LiteralExpr.mk .int (.int 3)).sort? = some (sortOf .int) ∧
    (∃ n : UTerm, builtinBinaryRel .eql .int (LiteralExpr.mk .int (.int 3))
        (LiteralExpr.mk .int (.int 4)) = .ok n ∧
      n.sort? = some (sortOf .bool)) ∧
    (∃ n : UTerm, builtinBinaryOp .add .int (LiteralExpr.mk .int (.int 3))
        (LiteralExpr.mk .int (.int 4)) = .ok n ∧
      n.sort? = some (sortOf .int)) ∧
    (∃ n : UTerm, unsafeBinaryRel .lss (LiteralExpr.mk .int (.int 3))
        (LiteralExpr.mk .int (.int 4)) = .ok n ∧
      n.sort? = some (sortOf .bool)) ∧
    (∃ n : UTerm, unsafeBinaryOp .mul (LiteralExpr.mk .int (.int 3))
        (LiteralExpr.mk .int (.int 4)) = .ok n ∧
      n.sort? = some (sortOf .int)) := by
  obtain ⟨h1, h2, h3, h4⟩ := operator_result_sorts .int
    (LiteralExpr.mk .int (.int 3)) (LiteralExpr.mk .int (.int 4)) rfl rfl rfl
  exact ⟨rfl, rfl, h1 .eql (by decide), h2 .add (by decide),
    h3 .lss (by decide), h4 .mul (by decide)⟩

/-- C6: the registry sort of `Func<T1,…,Tn,R>` is a function sort with
n+1 nested sorts — the argument sorts at indices 0 through n-1 followed
by the result sort, retrievable as `sorts(n)` where n is the arity —
and `apply` on a declaration of that sort produces a term whose sort is
the declared range sort, on both the untyped path (which computes
`func_decl.sort().sorts(arity)`) and the typed path (which uses
`sort<Range>()`). -/
theorem func_sort_layout (argTys : List Ty) (ran : Ty) :
    (sortOf (.func argTys ran)).is_func = true ∧
    (sortOf (.func argTys ran)).sorts_size = argTys.length + 1 ∧
    (∀ i, ∀ h : i < argTys.length,
      (sortOf (.func argTys ran)).sortsGet i =
        .ok (sortOf (argTys.get ⟨i, h⟩))) ∧
    (sortOf (.func argTys ran)).sortsGet argTys.length = .ok (sortOf ran) ∧
    (∀ symbol args, ∃ n : UTerm,
      UnsafeFuncAppExpr.mk ⟨symbol, sortOf (.func argTys ran)⟩
        argTys.length args = .ok n ∧ n.sort? = some (sortOf ran)) ∧
    (∀ symbol argTerms,
      (applyFunc argTys ran symbol argTerms).sort? = some (sortOf ran)) := by
  have hrepr : sortOf (.func argTys ran) =
      .comp true false false (argTys.map sortOf ++ [sortOf ran]) := by
    simp [sortOf, sortOfList_eq_map]
  have hres : (sortOf (.func argTys ran)).sortsGet argTys.length =
      .ok (sortOf ran) := by
    rw [hrepr, sortsGet_eq _ _ (by simp [SSort.nested])]
    congr 1
    exact List.getElem_concat_length _ _ _ (by simp) _
  refine ⟨by rw [hrepr]; rfl, ?_, ?_, hres, ?_, ?_⟩
  · rw [hrepr]
    simp [SSort.sorts_size, SSort.nested]
  · intro i h
    rw [hrepr, sortsGet_eq _ _ (by simp [SSort.nested]; omega)]
    congr 1
    simp only [SSort.nested]
    rw [List.getElem_append_left (by simpa using h), List.getElem_map,
      List.get_eq_getElem]
  · intro symbol args
    exact ⟨.funcApp (sortOf ran) none ⟨symbol, sortOf (.func argTys ran)⟩ args,
      by simp [UnsafeFuncAppExpr.mk, hres, except_bind_ok], rfl⟩
  · intro symbol argTerms
    rfl

/-- C6 witness: `Func<Int, Bv, Bool>` with arity 2. -/
theorem func_sort_layout_witness :
    (sortOf (.func [.int, .bv true 32] .bool)).is_func = true ∧
    (sortOf (.func [.int, .bv true 32] .bool)).sorts_size = 3 ∧
    (sortOf (.func [.int, .bv true 32] .bool)).sortsGet 2 =
      .ok (sortOf .bool) ∧
    (∃ n : UTerm,
      UnsafeFuncAppExpr.mk
        ⟨"f", sortOf (.func [.int, .bv true 32] .bool)⟩ 2
        [LiteralExpr.mk .int (.int 1),
         LiteralExpr.mk (.bv true 32) (.int 2)] = .ok n ∧
      n.sort? = some (sortOf .bool)) := by
  obtain ⟨h1, h2, _h3, h4, h5, _h6⟩ :=
    func_sort_layout [.int, .bv true 32] .bool
  exact ⟨h1, h2, h4, h5 "f"
    [LiteralExpr.mk .int (.int 1), LiteralExpr.mk (.bv true 32) (.int 2)]⟩

/-- C7: converting a non-null untyped handle to a typed handle of
static type `T` never raises an exception: it yields a null handle when
the underlying node has no `Expr<T>` base for that `T`, and otherwise a
non-null handle sharing the same underlying node. -/
theorem untyped_to_typed_cast (t : Ty) (u : UTerm) (hu : u.isNull = false) :
    (u.staticTy? = some t →
      u.castTo t = u ∧ (u.castTo t).isNull = false) ∧
    (u.staticTy? ≠ some t → (u.castTo t).isNull = true) := by
  constructor
  · intro h
    have he : u.castTo t = u := by simp [UTerm.castTo, h]
    exact ⟨he, by rw [he]; exact hu⟩
  · intro h
    unfold UTerm.castTo
    cases hst : u.staticTy? with
    | none => rfl
    | some t' =>
      have hne : t' ≠ t := fun he => h (by rw [hst, he])
      show (if t' = t then u else UTerm.null).isNull = true
      rw [if_neg hne]
      rfl

/-- C7 witness: an `Int`-typed literal casts to `Int` (same node) and
to `Bool` (null handle). -/
theorem untyped_to_typed_cast_witness :
    (LiteralExpr.mk .int (.int 9)).isNull = false ∧
    (LiteralExpr.mk .int (.int 9)).staticTy? = some .int ∧
    (LiteralExpr.mk .int (.int 9)).castTo .int =
      LiteralExpr.mk .int (.int 9) ∧
    ((LiteralExpr.mk .int (.int 9)).castTo .int).isNull = false ∧
    ((LiteralExpr.mk .int (.int 9)).castTo .bool).isNull = true := by
  obtain ⟨hy, _⟩ := untyped_to_typed_cast .int (LiteralExpr.mk .int (.int 9)) rfl
  obtain ⟨_, hn⟩ := untyped_to_typed_cast .bool (LiteralExpr.mk .int (.int 9)) rfl
  exact ⟨rfl, rfl, (hy rfl).1, (hy rfl).2, hn (by decide)⟩

/-- C5: with `st = store(a, i, v)`, `sel = select(st, i)`,
`f = (sel == v)` and `nf = !f` as built by the source's typed builders,
under every interpretation assigning the operands values of matching
kinds the formula `f` evaluates to true and its negation `nf` to false:
`select(store(a, i, v), i) == v` is valid and asserting its negation is
unsatisfiable under the McCarthy array semantics. -/
theorem select_store_read_over_write (dom ran : Ty)
    (a i v st sel f nf : UTerm)
    (hst : store dom ran a i v = .ok st)
    (hsel : select dom ran st i = .ok sel)
    (hf : builtinBinaryRel .eql ran sel v = .ok f)
    (hnf : UnaryExpr.mk .lnot .bool f = .ok nf) :
    ∀ env dflt es iv vv,
      eval env a = some (.arr dflt es) →
      eval env i = some iv →
      eval env v = some vv →
      eval env f = some (.bool true) ∧ eval env nf = some (.bool false) := by
  intro env dflt es iv vv hea hei hev
  simp only [store, ArrayStoreExpr.mk] at hst
  split_ifs at hst <;> simp at hst
  subst hst
  simp only [select, ArraySelectExpr.mk] at hsel
  split_ifs at hsel <;> simp at hsel
  subst hsel
  simp only [builtinBinaryRel, BinaryExpr.mk] at hf
  split_ifs at hf <;> simp at hf
  subst hf
  simp only [UnaryExpr.mk] at hnf
  split_ifs at hnf <;> simp at hnf
  subst hnf
  simp [eval, hea, hei, hev, entriesLookup, valBeq_refl]

/-- Array constant for the witness of the select/store law. -/
def aEx : UTerm := ConstantExpr.mk (.array .int .int) "a"

/-- Index literal for the witness of the select/store law. -/
def iEx : UTerm := LiteralExpr.mk .int (.int 1)

/-- Value literal for the witness of the select/store law. -/
def vEx : UTerm := LiteralExpr.mk .int (.int 2)

/-- The node built by `store(aEx, iEx, vEx)`. -/
def stEx : UTerm :=
  .arrayStore (sortOf (.array .int .int)) (some (.array .int .int))
    aEx iEx vEx

/-- The node built by `select(stEx, iEx)`. -/
def selEx : UTerm := .arraySelect (sortOf .int) (some .int) stEx iEx

/-- The node built by `selEx == vEx`. -/
def fEx : UTerm := .binary (sortOf .bool) (some .bool) .eql selEx vEx

/-- The node built by `!fEx`. -/
def nfEx : UTerm := .unary (sortOf .bool) (some .bool) .lnot fEx

/-- Interpretation assigning every constant the empty array with
default 0. -/
def exEnv : String → Val := fun _ => Val.arr (.int 0) .nil

/-- C5 witness. -/
theorem select_store_read_over_write_witness :
    store .int .int aEx iEx vEx = .ok stEx ∧
    select .int .int stEx iEx = .ok selEx ∧
    builtinBinaryRel .eql .int selEx vEx = .ok fEx ∧
    UnaryExpr.mk .lnot .bool fEx = .ok nfEx ∧
    eval exEnv aEx = some (.arr (.int 0) .nil) ∧
    eval exEnv fEx = some (.bool true) ∧
    eval exEnv nfEx = some (.bool false) := by
  have h := select_store_read_over_write .int .int aEx iEx vEx stEx selEx
    fEx nfEx rfl rfl rfl rfl exEnv (.int 0) .nil (.int 1) (.int 2)
    rfl rfl rfl
  exact ⟨rfl, rfl, rfl, rfl, rfl, h.1, h.2⟩
